import Mathlib

/-!
Verification development for the haptic-vst stimulus engine
(src/haptic-server/src/engine.rs and src/haptic-protocol/src/lib.rs).

The Rust code is shallowly embedded over exact rationals: every f32 value is
modelled by a rational number, so floating-point rounding is idealised but the
control flow, state updates and exact arithmetic of the source are preserved.
The transcendental f32 operations used by the DSP code (sin, sqrt, powf and the
constant pi) are abstracted into a parameter record DspFuns, since none of the
verified control-flow or state properties depend on their values.
-/

namespace Haptic

/-- TRANSDUCER_COUNT (engine.rs line 5). -/
def TRANSDUCER_COUNT : ℕ := 32

/-- MAX_WAVE_STIMULI (engine.rs line 6). -/
def MAX_WAVE_STIMULI : ℕ := 8

/-- MAX_STANDING_STIMULI (engine.rs line 7). -/
def MAX_STANDING_STIMULI : ℕ := 4

/-- MAX_DELAY_SAMPLES (engine.rs line 8). -/
def MAX_DELAY_SAMPLES : ℕ := 4800

/-- The transcendental f32 functions of the source, abstracted: sinq models
f32::sin, sqrtq models f32::sqrt, pow2q models 2.0f32.powf, piq models
std::f32::consts::PI. The engine's control flow never branches on their
values. -/
structure DspFuns where
  sinq : ℚ → ℚ
  sqrtq : ℚ → ℚ
  pow2q : ℚ → ℚ
  piq : ℚ

/-- MpeData (haptic-protocol/src/lib.rs lines 3-8). -/
structure MpeData where
  pressure : ℚ
  pitch_bend : ℚ
  timbre : ℚ
deriving DecidableEq

/-- The Default impl of MpeData (haptic-protocol/src/lib.rs lines 10-18). -/
def MpeData.default : MpeData := ⟨0, 0, 1/2⟩

/-- EnvelopeState (engine.rs lines 271-278). -/
inductive EnvelopeState where
  | Idle
  | Attack
  | Sustain
  | Release
deriving DecidableEq

/-- Rust f32-to-usize cast (saturating truncation towards zero, clamped at 0):
for x ≥ 0 this is the floor, for x < 0 it is 0, exactly Int.toNat of the
floor. -/
def f32AsUsize (x : ℚ) : ℕ := (⌊x⌋).toNat

/-- Rust f32::trunc: round towards zero. -/
def truncR (x : ℚ) : ℤ := if x < 0 then ⌈x⌉ else ⌊x⌋

/-- Rust f32 % operator: a - b * trunc (a / b) (remainder with the sign of the
dividend). -/
def remR (a b : ℚ) : ℚ := a - b * (truncR (a / b) : ℚ)

/-- DelayLine (engine.rs lines 197-202).  The buffer is total over ℕ; the
source indexes a fixed [f32; 4800] array and maintains the invariant that
every index used is below MAX_DELAY_SAMPLES. -/
structure DelayLine where
  buffer : ℕ → ℚ
  write_pos : ℚ

/-- DelayLine::new (engine.rs lines 205-211): zero buffer, write_pos 0. -/
def DelayLine.new : DelayLine := ⟨fun _ => 0, 0⟩

/-- DelayLine::reset (engine.rs lines 239-242). -/
def DelayLine.reset (_d : DelayLine) : DelayLine := ⟨fun _ => 0, 0⟩

/-- DelayLine::write_and_read (engine.rs lines 214-237): write the input at
the integer write cursor, read with linear interpolation at write_pos -
delay_samples (wrapped into the buffer), advance the cursor by 1 modulo the
buffer size.  Returns (output, new state). -/
def DelayLine.write_and_read (d : DelayLine) (input delay_samples : ℚ) :
    ℚ × DelayLine :=
  let write_idx : ℕ := f32AsUsize d.write_pos
  let buf := Function.update d.buffer write_idx input
  let rp0 := d.write_pos - delay_samples
  let read_pos := if rp0 < 0 then rp0 + (MAX_DELAY_SAMPLES : ℚ) else rp0
  let idx0 : ℕ := (⌊read_pos⌋).toNat % MAX_DELAY_SAMPLES
  let idx1 : ℕ := (idx0 + 1) % MAX_DELAY_SAMPLES
  let frac : ℚ := read_pos - (truncR read_pos : ℚ)
  let out := buf idx0 * (1 - frac) + buf idx1 * frac
  (out, { buffer := buf,
          write_pos := remR (d.write_pos + 1) (MAX_DELAY_SAMPLES : ℚ) })

/-- ProcessContext (engine.rs lines 79-83). -/
structure ProcessContext where
  sample_rate : ℚ
  dt : ℚ
  transducer_positions : Fin 32 → ℚ × ℚ

/-- WaveStimulus (engine.rs lines 251-269). -/
structure WaveStimulus where
  delay_lines : Fin 32 → DelayLine
  frequency : ℚ
  phase : ℚ
  amplitude : ℚ
  source_pos : ℚ × ℚ
  wave_speed : ℚ
  env_state : EnvelopeState
  env_level : ℚ
  env_time : ℚ
  mpe : MpeData

/-- The derived Default of WaveStimulus: zero numerics, fresh delay lines,
Idle envelope, default MpeData. -/
def WaveStimulus.default : WaveStimulus :=
  { delay_lines := fun _ => DelayLine.new
    frequency := 0
    phase := 0
    amplitude := 0
    source_pos := (0, 0)
    wave_speed := 0
    env_state := EnvelopeState.Idle
    env_level := 0
    env_time := 0
    mpe := MpeData.default }

/-- StandingWaveStimulus (engine.rs lines 378-387). -/
structure StandingWaveStimulus where
  frequency : ℚ
  phase : ℚ
  amplitude : ℚ
  env_state : EnvelopeState
  env_level : ℚ
  env_time : ℚ
  mpe : MpeData

/-- The derived Default of StandingWaveStimulus. -/
def StandingWaveStimulus.default : StandingWaveStimulus :=
  { frequency := 0
    phase := 0
    amplitude := 0
    env_state := EnvelopeState.Idle
    env_level := 0
    env_time := 0
    mpe := MpeData.default }

/-- The envelope update at the head of process, written once because the
source duplicates it verbatim (engine.rs lines 285-304 for WaveStimulus and
394-413 for StandingWaveStimulus): given the current state, level and time,
returns the updated (state, level, time) after one dt step.  The Idle arm is
never reached because process returns early on Idle. -/
def envStep (st : EnvelopeState) (lvl tm dt : ℚ) : EnvelopeState × ℚ × ℚ :=
  match st with
  | EnvelopeState.Idle => (EnvelopeState.Idle, lvl, tm)
  | EnvelopeState.Attack =>
      let tm1 := tm + dt
      let lvl1 := min (tm1 * 10) 1
      (if 1 ≤ lvl1 then EnvelopeState.Sustain else EnvelopeState.Attack,
       lvl1, tm1)
  | EnvelopeState.Sustain => (EnvelopeState.Sustain, 1, tm)
  | EnvelopeState.Release =>
      let tm1 := tm + dt
      let lvl1 := max (1 - tm1 * 2) 0
      (if lvl1 ≤ 0 then EnvelopeState.Idle else EnvelopeState.Release,
       lvl1, tm1)

/-- The note-to-frequency map 440 * 2^((note - 69)/12) used by both note_on
impls (engine.rs lines 341 and 434), with the power function abstract. -/
def noteFrequency (P : DspFuns) (note : ℕ) : ℚ :=
  440 * P.pow2q (((note : ℚ) - 69) / 12)

/-- WaveStimulus::process (engine.rs lines 281-334): early return on Idle,
envelope update, source position from MPE, source signal, 32 delay lines with
distance attenuation, phase advance with single-subtraction wrap. -/
def WaveStimulus.process (P : DspFuns) (v : WaveStimulus)
    (ctx : ProcessContext) : (Fin 32 → ℚ) × WaveStimulus :=
  if v.env_state = EnvelopeState.Idle then (fun _ => 0, v)
  else
    let e := envStep v.env_state v.env_level v.env_time ctx.dt
    let sp : ℚ × ℚ := (v.mpe.pitch_bend * (2/10), v.mpe.timbre * (2/10))
    let source := P.sinq (v.phase * 2 * P.piq) * v.amplitude * e.2.1 *
      v.mpe.pressure
    let per : Fin 32 → ℚ × DelayLine := fun i =>
      let tp := ctx.transducer_positions i
      let dx := tp.1 - sp.1
      let dy := tp.2 - sp.2
      let distance := P.sqrtq (dx * dx + dy * dy)
      let delay_time := distance / max v.wave_speed 1
      let delay_samples := delay_time * ctx.sample_rate
      let wr := (v.delay_lines i).write_and_read source delay_samples
      (wr.1 / (1 + distance * 2), wr.2)
    let phase1 := v.phase + v.frequency * ctx.dt
    (fun i => (per i).1,
     { v with delay_lines := fun i => (per i).2
              source_pos := sp
              env_state := e.1
              env_level := e.2.1
              env_time := e.2.2
              phase := if 1 ≤ phase1 then phase1 - 1 else phase1 })

/-- WaveStimulus::is_active (engine.rs lines 336-338). -/
def WaveStimulus.is_active (v : WaveStimulus) : Bool :=
  v.env_state != EnvelopeState.Idle

/-- WaveStimulus::note_on (engine.rs lines 340-347).  Note: env_level and
phase are not touched here; reset (called by the pool on allocation) zeroes
them. -/
def WaveStimulus.note_on (P : DspFuns) (v : WaveStimulus)
    (note velocity : ℕ) (mpe : MpeData) : WaveStimulus :=
  { v with frequency := noteFrequency P note
           amplitude := (velocity : ℚ) / 127
           mpe := mpe
           env_state := EnvelopeState.Attack
           env_time := 0
           wave_speed := 100 }

/-- WaveStimulus::note_off (engine.rs lines 349-354): from any non-Idle state
enter Release with env_time reset to 0; env_level is left unchanged. -/
def WaveStimulus.note_off (v : WaveStimulus) : WaveStimulus :=
  if v.env_state = EnvelopeState.Idle then v
  else { v with env_state := EnvelopeState.Release, env_time := 0 }

/-- WaveStimulus::mpe_update (engine.rs lines 357-359). -/
def WaveStimulus.mpe_update (v : WaveStimulus) (mpe : MpeData) :
    WaveStimulus := { v with mpe := mpe }

/-- WaveStimulus::reset (engine.rs lines 361-370): delay lines zeroed, phase
and envelope zeroed, wave_speed back to the default 100; frequency, amplitude,
source_pos and mpe are not touched. -/
def WaveStimulus.reset (v : WaveStimulus) : WaveStimulus :=
  { v with delay_lines := fun i => (v.delay_lines i).reset
           phase := 0
           env_state := EnvelopeState.Idle
           env_level := 0
           env_time := 0
           wave_speed := 100 }

/-- WaveStimulus::set_wave_speed (engine.rs lines 372-374). -/
def WaveStimulus.set_wave_speed (v : WaveStimulus) (wave_speed : ℚ) :
    WaveStimulus := { v with wave_speed := wave_speed }

/-- StandingWaveStimulus::process (engine.rs lines 390-427): same envelope and
oscillator as WaveStimulus, output in phase on all 32 channels, no delay
lines. -/
def StandingWaveStimulus.process (P : DspFuns) (v : StandingWaveStimulus)
    (ctx : ProcessContext) : (Fin 32 → ℚ) × StandingWaveStimulus :=
  if v.env_state = EnvelopeState.Idle then (fun _ => 0, v)
  else
    let e := envStep v.env_state v.env_level v.env_time ctx.dt
    let source := P.sinq (v.phase * 2 * P.piq) * v.amplitude * e.2.1 *
      v.mpe.pressure
    let phase1 := v.phase + v.frequency * ctx.dt
    (fun _ => source,
     { v with env_state := e.1
              env_level := e.2.1
              env_time := e.2.2
              phase := if 1 ≤ phase1 then phase1 - 1 else phase1 })

/-- StandingWaveStimulus::is_active (engine.rs lines 429-431). -/
def StandingWaveStimulus.is_active (v : StandingWaveStimulus) : Bool :=
  v.env_state != EnvelopeState.Idle

/-- StandingWaveStimulus::note_on (engine.rs lines 433-439). -/
def StandingWaveStimulus.note_on (P : DspFuns) (v : StandingWaveStimulus)
    (note velocity : ℕ) (mpe : MpeData) : StandingWaveStimulus :=
  { v with frequency := noteFrequency P note
           amplitude := (velocity : ℚ) / 127
           mpe := mpe
           env_state := EnvelopeState.Attack
           env_time := 0 }

/-- StandingWaveStimulus::note_off (engine.rs lines 441-446). -/
def StandingWaveStimulus.note_off (v : StandingWaveStimulus) :
    StandingWaveStimulus :=
  if v.env_state = EnvelopeState.Idle then v
  else { v with env_state := EnvelopeState.Release, env_time := 0 }

/-- StandingWaveStimulus::mpe_update (engine.rs lines 448-450). -/
def StandingWaveStimulus.mpe_update (v : StandingWaveStimulus)
    (mpe : MpeData) : StandingWaveStimulus := { v with mpe := mpe }

/-- StandingWaveStimulus::reset (engine.rs lines 452-457). -/
def StandingWaveStimulus.reset (v : StandingWaveStimulus) :
    StandingWaveStimulus :=
  { v with phase := 0
           env_state := EnvelopeState.Idle
           env_level := 0
           env_time := 0 }

/-- StimulusPool (engine.rs lines 24-27): N preallocated voices plus an
occupancy bitmap. -/
structure StimulusPool (V : Type) (N : ℕ) where
  stimuli : Fin N → V
  active_mask : Fin N → Bool

/-- StimulusPool::new (engine.rs lines 30-35): default voices, all-false
mask.  The default voice is passed explicitly in place of Rust's T::default. -/
def StimulusPool.new {V : Type} (N : ℕ) (d : V) : StimulusPool V N :=
  ⟨fun _ => d, fun _ => false⟩

/-- The linear first-free scan inside StimulusPool::allocate (engine.rs lines
38-44): the first index whose active_mask entry is false. -/
def firstFree {N : ℕ} (mask : Fin N → Bool) : Option (Fin N) :=
  (List.finRange N).find? (fun i => !(mask i))

/-- StimulusPool::allocate (engine.rs lines 37-46): mark the first free slot
active, reset its voice, and return the slot index with the updated pool
(modelling the &mut handle the source returns); none if every slot is
active.  The voice reset function stands for the Stimulus trait method. -/
def StimulusPool.allocate {V : Type} {N : ℕ} (reset : V → V)
    (p : StimulusPool V N) : Option (Fin N × StimulusPool V N) :=
  match firstFree p.active_mask with
  | none => none
  | some i =>
      some (i, ⟨Function.update p.stimuli i (reset (p.stimuli i)),
                Function.update p.active_mask i true⟩)

/-- StimulusPool::process_all (engine.rs lines 48-61): scan the slots in
order; an occupied slot whose voice is no longer active has its mask bit
cleared, otherwise the voice is processed and its 32-wide output summed into
the accumulator.  is_active and process stand for the trait methods. -/
def StimulusPool.process_all {V : Type} {N : ℕ} (isAct : V → Bool)
    (proc : V → (Fin 32 → ℚ) × V) (p : StimulusPool V N)
    (out : Fin 32 → ℚ) : StimulusPool V N × (Fin 32 → ℚ) :=
  (List.finRange N).foldl
    (fun acc i =>
      if acc.1.active_mask i then
        if !(isAct (acc.1.stimuli i)) then
          ({ acc.1 with active_mask := Function.update acc.1.active_mask i false },
           acc.2)
        else
          let r := proc (acc.1.stimuli i)
          ({ acc.1 with stimuli := Function.update acc.1.stimuli i r.2 },
           fun j => acc.2 j + r.1 j)
      else acc)
    (p, out)

/-- EngineCommand (engine.rs lines 86-92). -/
inductive EngineCommand where
  | NoteOn (note velocity channel : ℕ) (mpe : MpeData)
  | NoteOff (note channel : ℕ)
  | MpeUpdate (channel : ℕ) (mpe : MpeData)
  | Panic

/-- default_grid_layout (engine.rs lines 185-193): a 4 by 8 grid at 5 cm
spacing, position[i] = (0.05 * (i mod 8), 0.05 * (i div 8)). -/
def default_grid_layout : Fin 32 → ℚ × ℚ := fun i =>
  (((i.val % 8 : ℕ) : ℚ) * (5/100), ((i.val / 8 : ℕ) : ℚ) * (5/100))

/-- StimulusEngine (engine.rs lines 65-77).  The command queue itself lives
outside the state: the pending commands are passed to process as a list (the
source's crossbeam unbounded channel delivers commands in order). -/
structure StimulusEngine where
  wave_pool : StimulusPool WaveStimulus 8
  standing_pool : StimulusPool StandingWaveStimulus 4
  transducer_positions : Fin 32 → ℚ × ℚ

/-- StimulusEngine::new (engine.rs lines 95-105). -/
def StimulusEngine.new : StimulusEngine :=
  { wave_pool := StimulusPool.new 8 WaveStimulus.default
    standing_pool := StimulusPool.new 4 StandingWaveStimulus.default
    transducer_positions := default_grid_layout }

/-- One arm of the command drain inside StimulusEngine::process (engine.rs
lines 135-164).  NoteOn computes wave_speed = 20 + (velocity/127)*480 and
routes on velocity < 64; NoteOff is the source's TODO no-op; MpeUpdate falls
into the catch-all arm and is dropped; Panic replaces both pools with fresh
ones. -/
def applyCommand (P : DspFuns) (e : StimulusEngine) :
    EngineCommand → StimulusEngine
  | EngineCommand.NoteOn note velocity _channel mpe =>
      let wave_speed : ℚ := 20 + ((velocity : ℚ) / 127) * 480
      if velocity < 64 then
        match e.wave_pool.allocate WaveStimulus.reset with
        | some (i, p) =>
            { e with wave_pool :=
                { p with stimuli := (Function.update p.stimuli i
                    (WaveStimulus.set_wave_speed
                      (WaveStimulus.note_on P (p.stimuli i) note velocity mpe)
                      wave_speed)) } }
        | none => e
      else
        match e.standing_pool.allocate StandingWaveStimulus.reset with
        | some (i, p) =>
            { e with standing_pool :=
                { p with stimuli := (Function.update p.stimuli i
                    (StandingWaveStimulus.note_on P (p.stimuli i) note
                      velocity mpe)) } }
        | none => e
  | EngineCommand.NoteOff _note _channel => e
  | EngineCommand.MpeUpdate _channel _mpe => e
  | EngineCommand.Panic =>
      { e with wave_pool := StimulusPool.new 8 WaveStimulus.default
               standing_pool := StimulusPool.new 4 StandingWaveStimulus.default }

/-- Rust f32::clamp on exact rationals (engine.rs line 181): below lo gives
lo, above hi gives hi, otherwise the input. -/
def clampQ (x lo hi : ℚ) : ℚ := if x < lo then lo else if hi < x then hi else x

/-- StimulusEngine::process (engine.rs lines 133-183): drain all pending
commands, zero the output, process the wave pool then the standing pool
summing into the output, clamp every entry to [-1, 1].  Returns the updated
engine (the source mutates self) and the output frame. -/
def StimulusEngine.process (P : DspFuns) (e : StimulusEngine)
    (cmds : List EngineCommand) (sample_rate : ℚ) :
    StimulusEngine × (Fin 32 → ℚ) :=
  let e1 := cmds.foldl (applyCommand P) e
  let ctx : ProcessContext :=
    { sample_rate := sample_rate
      dt := 1 / sample_rate
      transducer_positions := e1.transducer_positions }
  let w := e1.wave_pool.process_all WaveStimulus.is_active
    (fun v => WaveStimulus.process P v ctx) (fun _ => 0)
  let s := e1.standing_pool.process_all StandingWaveStimulus.is_active
    (fun v => StandingWaveStimulus.process P v ctx) w.2
  ({ e1 with wave_pool := w.1, standing_pool := s.1 },
   fun i => clampQ (s.2 i) (-1) 1)

/-- The send half of the command bridge: the source constructs the bridge
with crossbeam_channel::unbounded (engine.rs line 96), whose send never
reports a full channel; the pending queue simply grows. -/
def bridgeSend (q : List EngineCommand) (c : EngineCommand) :
    List EngineCommand × Bool :=
  (q ++ [c], true)

/-- An idealised f32 carrying the IEEE special values, used to settle the
numerical claim about the limiter. -/
inductive F32 where
  | finite (q : ℚ)
  | nan
  | inf
  | neginf
deriving DecidableEq

/-- sample.clamp(-1.0, 1.0) (engine.rs line 181) on the idealised f32,
following the documented Rust semantics of f32::clamp: values below -1 give
-1, above 1 give 1, +inf gives 1, -inf gives -1, and NaN is returned
unchanged. -/
def f32Clamp (x : F32) : F32 :=
  match x with
  | F32.nan => F32.nan
  | F32.inf => F32.finite 1
  | F32.neginf => F32.finite (-1)
  | F32.finite q => F32.finite (clampQ q (-1) 1)

/-- The impulse input sequence 1, 0, 0, ... fed to the delay line. -/
def impulse (j : ℕ) : ℚ := if j = 0 then 1 else 0

/-- The state of a freshly reset delay line after j write_and_read calls
with constant integer delay k on the impulse input. -/
def delayRun (k : ℕ) : ℕ → DelayLine
  | 0 => DelayLine.new
  | j + 1 => ((delayRun k j).write_and_read (impulse j) (k : ℚ)).2

/-- The output of the call at position j (the (j+1)-th call) of the impulse
run. -/
def delayOut (k j : ℕ) : ℚ :=
  ((delayRun k j).write_and_read (impulse j) (k : ℚ)).1

/-- A buffer holding a single 1 in slot 0 — the delay line's contents once
the impulse has been written. -/
def ind0 : ℕ → ℚ := fun m => if m = 0 then 1 else 0

/-- A concrete DspFuns instance (all abstract functions zero) used to
evaluate the embedding at concrete inputs. -/
def P0 : DspFuns := ⟨fun _ => 0, fun _ => 0, fun _ => 0, 0⟩

/-- A concrete DspFuns instance whose power function is constantly 1, so that
noteFrequency P1 69 evaluates to the true 440 Hz of note 69. -/
def P1 : DspFuns := ⟨fun _ => 0, fun _ => 0, fun _ => 1, 0⟩

/-- A process context at a 100 Hz sample rate (dt = 1/100). -/
def ctx100 : ProcessContext := ⟨100, 1/100, default_grid_layout⟩

/-- A process context at the usual 48 kHz sample rate. -/
def ctx48k : ProcessContext := ⟨48000, 1/48000, default_grid_layout⟩

/-- A standing voice that has just received note 69 (440 Hz since
P1.pow2q 0 = 1) at full velocity: the state after
StandingWaveStimulus::note_on on a fresh voice. -/
def svC7 : StandingWaveStimulus :=
  StandingWaveStimulus.note_on P1 StandingWaveStimulus.default 69 127
    MpeData.default

/-- A concrete mid-cycle propagating voice used to exercise the phase bound. -/
def wExample : WaveStimulus :=
  { WaveStimulus.default with
      frequency := 1, phase := 1/2, env_state := EnvelopeState.Sustain,
      env_level := 1, amplitude := 1 }

/-- A concrete mid-cycle standing voice used to exercise the phase bound. -/
def sExample : StandingWaveStimulus :=
  { StandingWaveStimulus.default with
      frequency := 1, phase := 1/2, env_state := EnvelopeState.Sustain,
      env_level := 1, amplitude := 1 }

/-- A process context with dt = 1/2, so that the example voices advance by
exactly half a cycle per sample. -/
def ctx2 : ProcessContext := ⟨2, 1/2, default_grid_layout⟩

/-- A propagating voice caught mid-Attack at env_level 1/10. -/
def vAttack : WaveStimulus :=
  { WaveStimulus.default with
      frequency := 440, amplitude := 1, env_state := EnvelopeState.Attack,
      env_level := 1/10, env_time := 1/100 }

/-!  Theorems.  -/

/-- Helper: the clamped value always lies in [-1, 1]. -/
theorem clampQ_mem_Icc (x : ℚ) :
    -1 ≤ clampQ x (-1) 1 ∧ clampQ x (-1) 1 ≤ 1 := by
  unfold clampQ
  split_ifs <;> constructor <;> linarith

/-- Helper: a fold whose step fixes the accumulator is the identity. -/
theorem foldl_const {α β : Type _} (f : α → β → α) (a : α) (l : List β)
    (h : ∀ b, f a b = a) : l.foldl f a = a := by
  induction l with
  | nil => rfl
  | cons x xs ih => rw [List.foldl_cons, h x]; exact ih

/-- Helper: process_all on a pool with an all-false mask changes nothing. -/
theorem process_all_inactive {V : Type} {N : ℕ} (isAct : V → Bool)
    (proc : V → (Fin 32 → ℚ) × V) (p : StimulusPool V N) (out : Fin 32 → ℚ)
    (h : ∀ i, p.active_mask i = false) :
    StimulusPool.process_all isAct proc p out = (p, out) := by
  unfold StimulusPool.process_all
  exact foldl_const _ _ _ (fun i => by simp [h i])

/-- Helper: processing with an empty pending queue from an engine whose two
pools are fully unoccupied leaves the engine unchanged and outputs zero. -/
theorem process_fresh_pools (P : DspFuns) (e : StimulusEngine)
    (hw : ∀ i, e.wave_pool.active_mask i = false)
    (hs : ∀ i, e.standing_pool.active_mask i = false) (sr : ℚ) :
    StimulusEngine.process P e [] sr = (e, fun _ => 0) := by
  have hw' : ∀ (a : WaveStimulus → Bool)
      (b : WaveStimulus → (Fin 32 → ℚ) × WaveStimulus) (out : Fin 32 → ℚ),
      StimulusPool.process_all a b e.wave_pool out = (e.wave_pool, out) :=
    fun a b out => process_all_inactive a b e.wave_pool out hw
  have hs' : ∀ (a : StandingWaveStimulus → Bool)
      (b : StandingWaveStimulus → (Fin 32 → ℚ) × StandingWaveStimulus)
      (out : Fin 32 → ℚ),
      StimulusPool.process_all a b e.standing_pool out =
        (e.standing_pool, out) :=
    fun a b out => process_all_inactive a b e.standing_pool out hs
  simp only [StimulusEngine.process, List.foldl_nil, hw', hs']
  refine Prod.ext rfl ?_
  funext i
  norm_num [clampQ]

/-- Helper: draining is exhaustive, so processing a pending queue equals
processing an empty queue from the fully drained engine state. -/
theorem process_eq_drained (P : DspFuns) (e : StimulusEngine)
    (cmds : List EngineCommand) (sr : ℚ) :
    StimulusEngine.process P e cmds sr =
      StimulusEngine.process P (cmds.foldl (applyCommand P) e) [] sr := rfl

/-- Claim C1: for every call to StimulusEngine::process and every transducer
index i, the value left in output[i] when the call returns lies in [-1, +1]:
the summed outputs of both voice pools are clamped to that interval before
leaving the engine. -/
theorem C1_output_clamped (P : DspFuns) (e : StimulusEngine)
    (cmds : List EngineCommand) (sample_rate : ℚ) (i : Fin 32) :
    -1 ≤ (StimulusEngine.process P e cmds sample_rate).2 i ∧
      (StimulusEngine.process P e cmds sample_rate).2 i ≤ 1 := by
  unfold StimulusEngine.process
  exact clampQ_mem_Icc _

/-- Claim C4 (the code diverges from it): the NoteOff arm of the drain in
StimulusEngine::process is a TODO no-op (engine.rs lines 154-156), so no
voice is released: draining NoteOff leaves the engine exactly unchanged, and
in particular no matching voice transitions to Release. -/
theorem C4_noteOff_is_noop (P : DspFuns) (e : StimulusEngine)
    (note channel : ℕ) :
    applyCommand P e (EngineCommand.NoteOff note channel) = e := rfl

/-- Claim C5 (the code diverges from it): MpeUpdate falls into the drain's
catch-all arm (engine.rs line 162) and is discarded: draining it leaves the
engine exactly unchanged, so no voice ever receives the new MPE values even
though both voice types implement mpe_update. -/
theorem C5_mpeUpdate_is_dropped (P : DspFuns) (e : StimulusEngine)
    (channel : ℕ) (mpe : MpeData) :
    applyCommand P e (EngineCommand.MpeUpdate channel mpe) = e := rfl

/-- Claim C8 counterexample: the bridge is built with
crossbeam_channel::unbounded (engine.rs line 96), so there is no capacity
K ≥ 256 bounding the pending queue: a send on a queue of any length
succeeds. -/
theorem C8_counterexample_unbounded :
    ¬ (∃ K : ℕ, 256 ≤ K ∧
        ∀ q : List EngineCommand,
          (bridgeSend q EngineCommand.Panic).2 = true → q.length < K) := by
  rintro ⟨K, _hK, h⟩
  have h2 := h (List.replicate K EngineCommand.Panic) rfl
  simp at h2

/-- Claim C8 amended: the bridge is unbounded (send always succeeds) and each
StimulusEngine::process call drains every pending command, stopping only when
the queue is empty: processing with pending queue q is identical to
processing with an empty queue from the fully drained engine. -/
theorem C8_amended_unbounded_exhaustive_drain (P : DspFuns)
    (e : StimulusEngine) (q : List EngineCommand) (c : EngineCommand)
    (sr : ℚ) :
    (bridgeSend q c).2 = true ∧
      StimulusEngine.process P e q sr =
        StimulusEngine.process P (q.foldl (applyCommand P) e) [] sr :=
  ⟨rfl, process_eq_drained P e q sr⟩

/-- Claim C9 counterexample: the limiter is sample.clamp(-1.0, 1.0)
(engine.rs line 181), which by the Rust semantics of f32::clamp returns NaN
for a NaN input and ±1 for infinite inputs: a non-finite sample is never
replaced by zero, and a NaN reaching the limiter leaves the engine as NaN. -/
theorem C9_counterexample_nan_propagates :
    f32Clamp F32.nan ≠ F32.finite 0 ∧ f32Clamp F32.inf ≠ F32.finite 0 ∧
      f32Clamp F32.nan = F32.nan := by decide

/-- Claim C9 amended: the limiter stage clamps: a finite sample is clamped
into [-1, 1], +inf becomes 1, -inf becomes -1, and NaN propagates unchanged;
non-finite samples are not replaced by zero. -/
theorem C9_amended_limiter_behavior (q : ℚ) :
    f32Clamp F32.nan = F32.nan ∧
      f32Clamp F32.inf = F32.finite 1 ∧
      f32Clamp F32.neginf = F32.finite (-1) ∧
      f32Clamp (F32.finite q) = F32.finite (clampQ q (-1) 1) ∧
      -1 ≤ clampQ q (-1) 1 ∧ clampQ q (-1) 1 ≤ 1 :=
  ⟨rfl, rfl, rfl, rfl, (clampQ_mem_Icc q).1, (clampQ_mem_Icc q).2⟩

/-- Helper: a drain ending in Panic leaves both pools fresh and keeps the
transducer layout. -/
theorem drain_panic_engine (P : DspFuns) (e : StimulusEngine)
    (cs : List EngineCommand) :
    (cs ++ [EngineCommand.Panic]).foldl (applyCommand P) e =
      { wave_pool := StimulusPool.new 8 WaveStimulus.default
        standing_pool := StimulusPool.new 4 StandingWaveStimulus.default
        transducer_positions :=
          (cs.foldl (applyCommand P) e).transducer_positions } := by
  rw [List.foldl_append]
  rfl

/-- Helper: processing an empty queue from the panicked engine state changes
nothing and outputs zero. -/
theorem process_panicked (P : DspFuns) (tp : Fin 32 → ℚ × ℚ) (sr : ℚ) :
    StimulusEngine.process P
      { wave_pool := StimulusPool.new 8 WaveStimulus.default
        standing_pool := StimulusPool.new 4 StandingWaveStimulus.default
        transducer_positions := tp } [] sr =
      ({ wave_pool := StimulusPool.new 8 WaveStimulus.default
         standing_pool := StimulusPool.new 4 StandingWaveStimulus.default
         transducer_positions := tp }, fun _ => 0) :=
  process_fresh_pools P _ (fun _ => rfl) (fun _ => rfl) sr

/-- Claim C2: after a Panic command is drained both pools are fully idle
(every active_mask entry false, every voice back to its default state with
Idle envelope and zeroed delay buffers), the same call writes exactly zero to
all 32 output entries, and so does every subsequent call with an empty
pending queue, which also leaves the engine unchanged — regardless of the
engine state before the Panic. -/
theorem C2_panic_silences (P : DspFuns) (e : StimulusEngine)
    (cs : List EngineCommand) (sr sr' : ℚ) :
    (∀ i, (StimulusEngine.process P e (cs ++ [EngineCommand.Panic]) sr).2 i
        = 0) ∧
    (∀ i, (StimulusEngine.process P e (cs ++ [EngineCommand.Panic])
        sr).1.wave_pool.active_mask i = false ∧
      (StimulusEngine.process P e (cs ++ [EngineCommand.Panic])
        sr).1.wave_pool.stimuli i = WaveStimulus.default) ∧
    (∀ i, (StimulusEngine.process P e (cs ++ [EngineCommand.Panic])
        sr).1.standing_pool.active_mask i = false ∧
      (StimulusEngine.process P e (cs ++ [EngineCommand.Panic])
        sr).1.standing_pool.stimuli i = StandingWaveStimulus.default) ∧
    (∀ i, (StimulusEngine.process P
        (StimulusEngine.process P e (cs ++ [EngineCommand.Panic]) sr).1 []
        sr').2 i = 0) ∧
    (StimulusEngine.process P
        (StimulusEngine.process P e (cs ++ [EngineCommand.Panic]) sr).1 []
        sr').1 =
      (StimulusEngine.process P e (cs ++ [EngineCommand.Panic]) sr).1 := by
  have hproc : StimulusEngine.process P e (cs ++ [EngineCommand.Panic]) sr =
      ({ wave_pool := StimulusPool.new 8 WaveStimulus.default
         standing_pool := StimulusPool.new 4 StandingWaveStimulus.default
         transducer_positions :=
           (cs.foldl (applyCommand P) e).transducer_positions },
       fun _ => 0) := by
    rw [process_eq_drained, drain_panic_engine, process_panicked]
  have h1 : (StimulusEngine.process P e (cs ++ [EngineCommand.Panic])
      sr).1 =
      { wave_pool := StimulusPool.new 8 WaveStimulus.default
        standing_pool := StimulusPool.new 4 StandingWaveStimulus.default
        transducer_positions :=
          (cs.foldl (applyCommand P) e).transducer_positions } := by
    rw [hproc]
  have hout : (StimulusEngine.process P e (cs ++ [EngineCommand.Panic])
      sr).2 = fun _ => 0 := by
    rw [hproc]
  refine ⟨fun i => by rw [hout], fun i => by rw [h1]; exact ⟨rfl, rfl⟩,
    fun i => by rw [h1]; exact ⟨rfl, rfl⟩, fun i => ?_, ?_⟩
  · rw [h1, process_panicked]
  · rw [h1, process_panicked]

/-- Claim C3: when the drain handles NoteOn, it computes
wave_speed = 20 + (velocity/127)*480; with velocity < 64 it allocates the
first free propagating slot, initialises it with note_on and then
set_wave_speed, with velocity ≥ 64 it allocates the first free standing slot
with note_on only; if the chosen pool has no free slot the note is dropped
and the engine (both pools) is left unchanged. -/
theorem C3_note_on_routing (P : DspFuns) (e : StimulusEngine)
    (note velocity channel : ℕ) (mpe : MpeData) :
    (velocity < 64 → ∀ i, firstFree e.wave_pool.active_mask = some i →
      applyCommand P e (EngineCommand.NoteOn note velocity channel mpe) =
        { e with wave_pool :=
            ⟨Function.update e.wave_pool.stimuli i
              (WaveStimulus.set_wave_speed
                (WaveStimulus.note_on P
                  (WaveStimulus.reset (e.wave_pool.stimuli i)) note velocity
                  mpe)
                (20 + ((velocity : ℚ) / 127) * 480)),
             Function.update e.wave_pool.active_mask i true⟩ }) ∧
    (velocity < 64 → firstFree e.wave_pool.active_mask = none →
      applyCommand P e (EngineCommand.NoteOn note velocity channel mpe) =
        e) ∧
    (¬ velocity < 64 → ∀ i,
      firstFree e.standing_pool.active_mask = some i →
      applyCommand P e (EngineCommand.NoteOn note velocity channel mpe) =
        { e with standing_pool :=
            ⟨Function.update e.standing_pool.stimuli i
              (StandingWaveStimulus.note_on P
                (StandingWaveStimulus.reset (e.standing_pool.stimuli i))
                note velocity mpe),
             Function.update e.standing_pool.active_mask i true⟩ }) ∧
    (¬ velocity < 64 → firstFree e.standing_pool.active_mask = none →
      applyCommand P e (EngineCommand.NoteOn note velocity channel mpe) =
        e) := by
  refine ⟨?_, ?_, ?_, ?_⟩
  · intro h i hf
    simp only [applyCommand, StimulusPool.allocate, hf, if_pos h,
      Function.update_idem, Function.update_same]
  · intro h hf
    simp only [applyCommand, StimulusPool.allocate, hf, if_pos h]
  · intro h i hf
    simp only [applyCommand, StimulusPool.allocate, hf, if_neg h,
      Function.update_idem, Function.update_same]
  · intro h hf
    simp only [applyCommand, StimulusPool.allocate, hf, if_neg h]

/-- Witness for C3 at a concrete input: NoteOn note 60, velocity 40 on a
fresh engine goes to propagating slot 0 with
wave_speed 20 + (40/127)*480. -/
theorem C3_note_on_routing_witness :
    (40 < 64) ∧
    firstFree StimulusEngine.new.wave_pool.active_mask = some (0 : Fin 8) ∧
    applyCommand P0 StimulusEngine.new
        (EngineCommand.NoteOn 60 40 0 MpeData.default) =
      { StimulusEngine.new with wave_pool :=
          ⟨Function.update StimulusEngine.new.wave_pool.stimuli (0 : Fin 8)
            (WaveStimulus.set_wave_speed
              (WaveStimulus.note_on P0
                (WaveStimulus.reset
                  (StimulusEngine.new.wave_pool.stimuli (0 : Fin 8))) 60 40
                MpeData.default)
              (20 + (((40 : ℕ) : ℚ) / 127) * 480)),
           Function.update StimulusEngine.new.wave_pool.active_mask
             (0 : Fin 8) true⟩ } := by
  have hf : firstFree StimulusEngine.new.wave_pool.active_mask =
      some (0 : Fin 8) := by decide
  exact ⟨by decide, hf,
    (C3_note_on_routing P0 StimulusEngine.new 60 40 0 MpeData.default).1
      (by decide) (0 : Fin 8) hf⟩

/-- Helper: a voice in Attack moves to Release with env_time zeroed on
note_off. -/
theorem note_off_from_attack (v : WaveStimulus)
    (hA : v.env_state = EnvelopeState.Attack) :
    WaveStimulus.note_off v =
      { v with env_state := EnvelopeState.Release, env_time := 0 } := by
  unfold WaveStimulus.note_off
  rw [if_neg (by rw [hA]; exact fun h => EnvelopeState.noConfusion h)]

/-- Claim C10: if note_off hits a voice in Attack, the first subsequent
process call computes env_level = max(1 - 2*dt, 0) = 1 - 2*dt (for 2*dt ≤ 1):
note_off zeroes env_time and the Release branch evaluates
max(1 - 2*env_time, 0), so the release ramp restarts from 1 rather than from
the level the envelope had attained, and env_level jumps upward whenever the
attained level was below 1 - 2*dt. -/
theorem C10_release_restarts_from_one (P : DspFuns) (v : WaveStimulus)
    (ctx : ProcessContext) (hA : v.env_state = EnvelopeState.Attack)
    (hdt : 2 * ctx.dt ≤ 1) :
    (WaveStimulus.process P (WaveStimulus.note_off v) ctx).2.env_level =
      1 - 2 * ctx.dt ∧
    (v.env_level < 1 - 2 * ctx.dt →
      v.env_level <
        (WaveStimulus.process P (WaveStimulus.note_off v) ctx).2.env_level)
    := by
  have hlvl : (WaveStimulus.process P (WaveStimulus.note_off v)
      ctx).2.env_level = 1 - 2 * ctx.dt := by
    rw [note_off_from_attack v hA]
    unfold WaveStimulus.process
    rw [if_neg (fun h => EnvelopeState.noConfusion h)]
    show (envStep EnvelopeState.Release v.env_level 0 ctx.dt).2.1 =
      1 - 2 * ctx.dt
    unfold envStep
    show max (1 - (0 + ctx.dt) * 2) 0 = 1 - 2 * ctx.dt
    rw [max_eq_left (by linarith)]
    ring
  exact ⟨hlvl, fun h => by rw [hlvl]; exact h⟩

/-- Witness for C10 at a concrete input: a voice caught in Attack at
env_level 1/10 and note_off at 48 kHz; the next sample's env_level is
1 - 2/48000, an upward jump. -/
theorem C10_release_restarts_from_one_witness :
    vAttack.env_state = EnvelopeState.Attack ∧ 2 * ctx48k.dt ≤ 1 ∧
    (WaveStimulus.process P0 (WaveStimulus.note_off vAttack)
      ctx48k).2.env_level = 1 - 2 * ctx48k.dt ∧
    vAttack.env_level < 1 - 2 * ctx48k.dt ∧
    vAttack.env_level <
      (WaveStimulus.process P0 (WaveStimulus.note_off vAttack)
        ctx48k).2.env_level := by
  have hdt : 2 * ctx48k.dt ≤ 1 := by norm_num [ctx48k]
  have hjump : vAttack.env_level < 1 - 2 * ctx48k.dt := by
    norm_num [vAttack, ctx48k, WaveStimulus.default]
  have h3 := C10_release_restarts_from_one P0 vAttack ctx48k rfl hdt
  exact ⟨rfl, hdt, h3.1, hjump, h3.2 hjump⟩

/-- Helper: process leaves an Idle voice unchanged. -/
theorem wave_process_idle (P : DspFuns) (v : WaveStimulus)
    (ctx : ProcessContext) (h : v.env_state = EnvelopeState.Idle) :
    (WaveStimulus.process P v ctx).2 = v := by
  unfold WaveStimulus.process
  rw [if_pos h]

/-- Helper: the phase left by a non-Idle propagating voice process: advance
by frequency*dt and subtract 1 once if the result reached 1. -/
theorem wave_process_phase (P : DspFuns) (v : WaveStimulus)
    (ctx : ProcessContext) (h : ¬ v.env_state = EnvelopeState.Idle) :
    (WaveStimulus.process P v ctx).2.phase =
      if 1 ≤ v.phase + v.frequency * ctx.dt then
        v.phase + v.frequency * ctx.dt - 1
      else v.phase + v.frequency * ctx.dt := by
  unfold WaveStimulus.process
  rw [if_neg h]

/-- Helper: process leaves an Idle standing voice unchanged. -/
theorem standing_process_idle (P : DspFuns) (v : StandingWaveStimulus)
    (ctx : ProcessContext) (h : v.env_state = EnvelopeState.Idle) :
    (StandingWaveStimulus.process P v ctx).2 = v := by
  unfold StandingWaveStimulus.process
  rw [if_pos h]

/-- Helper: the phase left by a non-Idle standing voice process. -/
theorem standing_process_phase (P : DspFuns) (v : StandingWaveStimulus)
    (ctx : ProcessContext) (h : ¬ v.env_state = EnvelopeState.Idle) :
    (StandingWaveStimulus.process P v ctx).2.phase =
      if 1 ≤ v.phase + v.frequency * ctx.dt then
        v.phase + v.frequency * ctx.dt - 1
      else v.phase + v.frequency * ctx.dt := by
  unfold StandingWaveStimulus.process
  rw [if_neg h]

/-- Claim C7 counterexample: phase is not always kept in [0, 1).  A standing
voice freshly noted on at 440 Hz (note 69) processed at a 100 Hz sample rate
advances phase by 4.4 in one sample, and the single modular subtraction
leaves phase = 3.4 ∉ [0, 1). -/
theorem C7_counterexample_phase_escapes :
    (StandingWaveStimulus.process P1 svC7 ctx100).2.phase = 17/5 ∧
    ¬ ((StandingWaveStimulus.process P1 svC7 ctx100).2.phase < 1) := by
  have h := standing_process_phase P1 svC7 ctx100 (by decide)
  rw [h]
  norm_num [svC7, ctx100, StandingWaveStimulus.note_on,
    StandingWaveStimulus.default, noteFrequency, P1]

/-- Claim C7 amended: provided the per-sample phase increment frequency*dt
lies in [0, 1] and the voice's phase is in [0, 1) before the sample, the
phase of every voice (propagating or standing) is again in [0, 1) after the
sample: the increment is followed by a single modular subtraction. -/
theorem C7_amended_phase_bound (P : DspFuns) (w : WaveStimulus)
    (s : StandingWaveStimulus) (ctx : ProcessContext)
    (hw0 : 0 ≤ w.phase) (hw1 : w.phase < 1)
    (hwf0 : 0 ≤ w.frequency * ctx.dt) (hwf1 : w.frequency * ctx.dt ≤ 1)
    (hs0 : 0 ≤ s.phase) (hs1 : s.phase < 1)
    (hsf0 : 0 ≤ s.frequency * ctx.dt) (hsf1 : s.frequency * ctx.dt ≤ 1) :
    (0 ≤ (WaveStimulus.process P w ctx).2.phase ∧
      (WaveStimulus.process P w ctx).2.phase < 1) ∧
    (0 ≤ (StandingWaveStimulus.process P s ctx).2.phase ∧
      (StandingWaveStimulus.process P s ctx).2.phase < 1) := by
  constructor
  · by_cases h : w.env_state = EnvelopeState.Idle
    · rw [wave_process_idle P w ctx h]
      exact ⟨hw0, hw1⟩
    · rw [wave_process_phase P w ctx h]
      split_ifs with hc
      · constructor <;> linarith
      · constructor <;> linarith
  · by_cases h : s.env_state = EnvelopeState.Idle
    · rw [standing_process_idle P s ctx h]
      exact ⟨hs0, hs1⟩
    · rw [standing_process_phase P s ctx h]
      split_ifs with hc
      · constructor <;> linarith
      · constructor <;> linarith

/-- Witness for the amended C7 at a concrete input: voices at phase 1/2 with
a half-cycle increment land exactly on the wrap and stay in [0, 1). -/
theorem C7_amended_phase_bound_witness :
    (0 ≤ wExample.phase ∧ wExample.phase < 1 ∧
      0 ≤ wExample.frequency * ctx2.dt ∧ wExample.frequency * ctx2.dt ≤ 1) ∧
    (0 ≤ sExample.phase ∧ sExample.phase < 1 ∧
      0 ≤ sExample.frequency * ctx2.dt ∧ sExample.frequency * ctx2.dt ≤ 1) ∧
    ((0 ≤ (WaveStimulus.process P0 wExample ctx2).2.phase ∧
      (WaveStimulus.process P0 wExample ctx2).2.phase < 1) ∧
    (0 ≤ (StandingWaveStimulus.process P0 sExample ctx2).2.phase ∧
      (StandingWaveStimulus.process P0 sExample ctx2).2.phase < 1)) := by
  have hw0 : 0 ≤ wExample.phase := by
    norm_num [wExample, WaveStimulus.default]
  have hw1 : wExample.phase < 1 := by
    norm_num [wExample, WaveStimulus.default]
  have hwf0 : 0 ≤ wExample.frequency * ctx2.dt := by
    norm_num [wExample, WaveStimulus.default, ctx2]
  have hwf1 : wExample.frequency * ctx2.dt ≤ 1 := by
    norm_num [wExample, WaveStimulus.default, ctx2]
  have hs0 : 0 ≤ sExample.phase := by
    norm_num [sExample, StandingWaveStimulus.default]
  have hs1 : sExample.phase < 1 := by
    norm_num [sExample, StandingWaveStimulus.default]
  have hsf0 : 0 ≤ sExample.frequency * ctx2.dt := by
    norm_num [sExample, StandingWaveStimulus.default, ctx2]
  have hsf1 : sExample.frequency * ctx2.dt ≤ 1 := by
    norm_num [sExample, StandingWaveStimulus.default, ctx2]
  exact ⟨⟨hw0, hw1, hwf0, hwf1⟩, ⟨hs0, hs1, hsf0, hsf1⟩,
    C7_amended_phase_bound P0 wExample sExample ctx2 hw0 hw1 hwf0 hwf1 hs0
      hs1 hsf0 hsf1⟩

/-- Helper: the saturating f32-to-usize cast is the identity on natural
inputs. -/
theorem f32AsUsize_natCast (n : ℕ) : f32AsUsize (n : ℚ) = n := by
  unfold f32AsUsize
  rw [Int.floor_natCast]
  exact Int.toNat_natCast n

/-- Helper: truncation towards zero is the identity on natural inputs. -/
theorem truncR_natCast (n : ℕ) : truncR (n : ℚ) = n := by
  unfold truncR
  rw [if_neg (not_lt.mpr (Nat.cast_nonneg n)), Int.floor_natCast]

/-- Helper: write_and_read at an integer write cursor j < 4800 with an
integer delay k < 4800: the input is written at slot j, the (exact, frac = 0)
read comes from slot (j + 4800 - k) mod 4800 of the written buffer, and the
cursor advances to (j + 1) mod 4800. -/
theorem write_and_read_nat (b : ℕ → ℚ) (j k : ℕ) (x : ℚ) (hj : j < 4800)
    (hk : k < 4800) :
    DelayLine.write_and_read ⟨b, (j : ℚ)⟩ x (k : ℚ) =
      (Function.update b j x ((j + 4800 - k) % 4800),
       ⟨Function.update b j x, (((j + 1) % 4800 : ℕ) : ℚ)⟩) := by
  have hRP : (if (j : ℚ) - (k : ℚ) < 0 then (j : ℚ) - (k : ℚ) + 4800
      else (j : ℚ) - (k : ℚ)) = (((j + 4800 - k) % 4800 : ℕ) : ℚ) := by
    rcases lt_or_le j k with h | h
    · rw [if_pos (sub_neg.mpr (by exact_mod_cast h))]
      rw [Nat.mod_eq_of_lt (by omega)]
      rw [Nat.cast_sub (by omega : k ≤ j + 4800)]
      push_cast
      ring
    · rw [if_neg (not_lt.mpr (sub_nonneg.mpr (by exact_mod_cast h)))]
      rw [show (j + 4800 - k) % 4800 = j - k by omega]
      rw [Nat.cast_sub h]
  have hwp : remR ((j : ℚ) + 1) 4800 = (((j + 1) % 4800 : ℕ) : ℚ) := by
    unfold remR truncR
    rcases Nat.lt_or_ge (j + 1) 4800 with hl | hg
    · rw [Nat.mod_eq_of_lt hl]
      have h0 : (0 : ℚ) ≤ ((j : ℚ) + 1) / 4800 := by positivity
      rw [if_neg (not_lt.mpr h0)]
      rw [Int.floor_eq_zero_iff.mpr
        ⟨h0, by
          rw [div_lt_one (by norm_num)]
          exact_mod_cast hl⟩]
      push_cast
      ring
    · have hj' : j = 4799 := by omega
      subst hj'
      norm_num
  have hmm : ((j + 4800 - k) % 4800) % 4800 = (j + 4800 - k) % 4800 :=
    Nat.mod_mod_of_dvd _ dvd_rfl
  simp only [DelayLine.write_and_read, MAX_DELAY_SAMPLES, Nat.cast_ofNat,
    f32AsUsize_natCast, hRP, hwp, Int.floor_natCast, Int.toNat_natCast,
    truncR_natCast, Int.cast_natCast, sub_self, mul_zero, mul_one, sub_zero,
    add_zero, hmm]
  rw [f32AsUsize_natCast, hRP, Int.floor_natCast, Int.toNat_natCast, hmm]

/-- Helper: the first component of write_and_read at integer positions. -/
theorem write_and_read_nat_fst (b : ℕ → ℚ) (j k : ℕ) (x : ℚ) (hj : j < 4800)
    (hk : k < 4800) :
    (DelayLine.write_and_read ⟨b, (j : ℚ)⟩ x (k : ℚ)).1 =
      Function.update b j x ((j + 4800 - k) % 4800) := by
  rw [write_and_read_nat b j k x hj hk]

/-- Helper: the second component of write_and_read at integer positions. -/
theorem write_and_read_nat_snd (b : ℕ → ℚ) (j k : ℕ) (x : ℚ) (hj : j < 4800)
    (hk : k < 4800) :
    (DelayLine.write_and_read ⟨b, (j : ℚ)⟩ x (k : ℚ)).2 =
      ⟨Function.update b j x, (((j + 1) % 4800 : ℕ) : ℚ)⟩ := by
  rw [write_and_read_nat b j k x hj hk]

/-- Helper: during the first k+1 calls of the impulse run, the delay line's
cursor sits at j and the buffer is all zero before the first call and the
slot-0 impulse afterwards. -/
theorem delayRun_spec (k : ℕ) (hk : k < 4800) (j : ℕ) (hj : j ≤ k) :
    delayRun k j =
      ⟨(if j = 0 then (fun _ => 0) else ind0), (j : ℚ)⟩ := by
  induction j with
  | zero => simp [delayRun, DelayLine.new]
  | succ n ih =>
      have hn : n ≤ k := by omega
      show ((delayRun k n).write_and_read (impulse n) (k : ℚ)).2 = _
      rw [ih hn]
      rw [write_and_read_nat_snd _ n k _ (by omega) hk]
      congr 1
      · rcases Nat.eq_zero_or_pos n with h0 | hpos
        · subst h0
          funext m
          simp [Function.update_apply, ind0, impulse]
        · have hne : n ≠ 0 := by omega
          rw [if_neg hne, if_neg (by omega : ¬ n + 1 = 0)]
          rw [show impulse n = ind0 n by simp [impulse, ind0, hne]]
          rw [Function.update_eq_self]
      · rw [Nat.mod_eq_of_lt (by omega)]

/-- Claim C6: for a freshly reset delay line and any integer k with
0 ≤ k < 4800, feeding the impulse 1, 0, 0, ... through write_and_read with
constant delay k yields output 0 at every position j < k and exactly 1 at
position k: the impulse is written before reading and reappears exactly k
samples later under linear interpolation. -/
theorem C6_delay_line_impulse (k : ℕ) (hk : k < 4800) :
    (∀ j, j < k → delayOut k j = 0) ∧ delayOut k k = 1 := by
  constructor
  · intro j hj
    unfold delayOut
    rw [delayRun_spec k hk j (le_of_lt hj)]
    rw [write_and_read_nat_fst _ j k _ (by omega) hk]
    rw [Nat.mod_eq_of_lt (by omega : j + 4800 - k < 4800)]
    rw [Function.update_apply, if_neg (by omega : ¬ j + 4800 - k = j)]
    rcases Nat.eq_zero_or_pos j with h0 | hpos
    · subst h0
      rw [if_pos rfl]
    · rw [if_neg (by omega : ¬ j = 0)]
      simp only [ind0]
      rw [if_neg (by omega : ¬ j + 4800 - k = 0)]
  · unfold delayOut
    rw [delayRun_spec k hk k le_rfl]
    rw [write_and_read_nat_fst _ k k _ (by omega) hk]
    rw [show (k + 4800 - k) % 4800 = 0 by omega]
    rcases Nat.eq_zero_or_pos k with h0 | hpos
    · subst h0
      rw [Function.update_apply, if_pos rfl]
      simp [impulse]
    · rw [Function.update_apply, if_neg (by omega : ¬ (0 : ℕ) = k)]
      rw [if_neg (by omega : ¬ k = 0)]
      simp [ind0]

/-- Witness for C6 at the concrete delay k = 2: the impulse run outputs 0 at
positions 0 and 1 and exactly 1 at position 2. -/
theorem C6_delay_line_impulse_witness :
    (2 < 4800) ∧ delayOut 2 0 = 0 ∧ delayOut 2 1 = 0 ∧ delayOut 2 2 = 1 :=
  ⟨by omega, (C6_delay_line_impulse 2 (by omega)).1 0 (by omega),
   (C6_delay_line_impulse 2 (by omega)).1 1 (by omega),
   (C6_delay_line_impulse 2 (by omega)).2⟩

end Haptic
